import Mathlib

/-!
Verification of the RTKA-U evaluation engine (opsec-ee/rtka-u).

Shallow embedding of the Python sources:
  * `rtka_u_improved.py` — three-valued Kleene expression trees with two
    evaluation modes (`evaluate_rtka` with early termination, `evaluate_naive`
    without) and confidence propagation over exact rational confidences.
  * `rtka_u_algorithm.py` — the flat-sequence evaluator `recursive_ternary`
    together with `confidence_and` / `confidence_or`.

Python floats are modelled as exact rationals (ℚ); Python exceptions are
modelled with `Except`; the dynamically-typed return value of the flat
`recursive_ternary` (a bare int, or an `(int, float)` pair, or an
`(int, None)` pair) is modelled by the inductive `RTResult`.
-/

/-- Three-valued Kleene truth values, `TruthValue` of `rtka_u_improved.py`,
mapped to {-1, 0, 1}. -/
inductive TruthValue
  | FALSE
  | UNKNOWN
  | TRUE
deriving DecidableEq, Repr

/-- Numeric value of a `TruthValue` (the `.value` of the Python enum). -/
def TruthValue.toInt : TruthValue → Int
  | .FALSE => -1
  | .UNKNOWN => 0
  | .TRUE => 1

/-- Inverse of `TruthValue.toInt`; models the Python `TruthValue(x)`
constructor call, which raises for an int outside {-1, 0, 1}. -/
def TruthValue.ofInt : Int → Option TruthValue
  | -1 => some .FALSE
  | 0 => some .UNKNOWN
  | 1 => some .TRUE
  | _ => none

/-- Models `TruthValue(min(a.value, b.value))`: Python's `min` returns its
first argument when the two compare equal. -/
def kleene_min (a b : TruthValue) : TruthValue :=
  if a.toInt ≤ b.toInt then a else b

/-- Models `TruthValue(max(a.value, b.value))`: Python's `max` returns its
first argument when the two compare equal. -/
def kleene_max (a b : TruthValue) : TruthValue :=
  if b.toInt ≤ a.toInt then a else b

/-- Models `TruthValue(-a.value)` in `Negation.evaluate_rtka`. -/
def kleene_neg : TruthValue → TruthValue
  | .FALSE => .TRUE
  | .UNKNOWN => .UNKNOWN
  | .TRUE => .FALSE

/-- Result record of a tree evaluation (`EvaluationResult` dataclass):
truth value, propagated confidence, number of subexpressions evaluated. -/
structure EvaluationResult where
  value : TruthValue
  confidence : ℚ
  evaluations : Nat
deriving DecidableEq, Repr

/-- Expression trees of `rtka_u_improved.py`: the closed set of node kinds
`AtomicProposition`, `Conjunction`, `Disjunction`, `Negation`. An atomic
node carries the (already validated) truth value and confidence stored by
`AtomicProposition.__init__`. -/
inductive LogicExpression
  | atomic (value : TruthValue) (confidence : ℚ)
  | conjunction (left right : LogicExpression)
  | disjunction (left right : LogicExpression)
  | negation (operand : LogicExpression)
deriving DecidableEq, Repr

/-- Optimized-mode evaluation, `evaluate_rtka` of each node class:
  * atomic: its own value/confidence, one evaluation;
  * conjunction: evaluate left; if FALSE return (FALSE, 1.0, left count)
    without touching the right child; else combine with `min`, confidence
    1.0 when the combined value is FALSE and the product otherwise;
  * disjunction: evaluate left; if TRUE return (TRUE, 1.0, left count);
    else combine with `max`, confidence `1 - (1-cl)*(1-cr)`;
  * negation: negate the operand's value, keep its confidence and count. -/
def evaluate_rtka : LogicExpression → EvaluationResult
  | .atomic v c => ⟨v, c, 1⟩
  | .conjunction l r =>
    let left_result := evaluate_rtka l
    if left_result.value = .FALSE then
      ⟨.FALSE, 1, left_result.evaluations⟩
    else
      let right_result := evaluate_rtka r
      let result_value := kleene_min left_result.value right_result.value
      ⟨result_value,
       if result_value = .FALSE then 1
       else left_result.confidence * right_result.confidence,
       left_result.evaluations + right_result.evaluations⟩
  | .disjunction l r =>
    let left_result := evaluate_rtka l
    if left_result.value = .TRUE then
      ⟨.TRUE, 1, left_result.evaluations⟩
    else
      let right_result := evaluate_rtka r
      ⟨kleene_max left_result.value right_result.value,
       1 - (1 - left_result.confidence) * (1 - right_result.confidence),
       left_result.evaluations + right_result.evaluations⟩
  | .negation o =>
    let operand_result := evaluate_rtka o
    ⟨kleene_neg operand_result.value, operand_result.confidence,
     operand_result.evaluations⟩

/-- Naive-mode evaluation, `evaluate_naive` of each node class: always
evaluates both children of a binary node with the same value/confidence
formulas. `AtomicProposition.evaluate_naive` and `Negation.evaluate_naive`
both literally `return self.evaluate_rtka()` in the source, which the
negation case reproduces (so a naive negation evaluates its operand in
RTKA mode). -/
def evaluate_naive : LogicExpression → EvaluationResult
  | .atomic v c => ⟨v, c, 1⟩
  | .conjunction l r =>
    let left_result := evaluate_naive l
    let right_result := evaluate_naive r
    let result_value := kleene_min left_result.value right_result.value
    ⟨result_value,
     if result_value = .FALSE then 1
     else left_result.confidence * right_result.confidence,
     left_result.evaluations + right_result.evaluations⟩
  | .disjunction l r =>
    let left_result := evaluate_naive l
    let right_result := evaluate_naive r
    ⟨kleene_max left_result.value right_result.value,
     1 - (1 - left_result.confidence) * (1 - right_result.confidence),
     left_result.evaluations + right_result.evaluations⟩
  | .negation o => evaluate_rtka (.negation o)

/-- Validity of a tree: every atomic node satisfies the constraints that
`AtomicProposition.__init__` enforces on the stored fields — a definitive
value (TRUE/FALSE) carries confidence exactly 1.0, and every confidence
lies in [0, 1]. -/
def validb : LogicExpression → Bool
  | .atomic v c =>
    (decide (v = TruthValue.UNKNOWN) || decide (c = 1)) &&
    (decide (0 ≤ c) && decide (c ≤ 1))
  | .conjunction l r => validb l && validb r
  | .disjunction l r => validb l && validb r
  | .negation o => validb o

/-- Error kinds raised (as `ValueError`s) by `AtomicProposition.__init__`,
named after the spec's error taxonomy. -/
inductive AtomicError
  | invalidTernaryValue
  | invalidDefiniteConfidence
  | invalidConfidence
deriving DecidableEq, Repr

/-- Fields stored by a successfully constructed `AtomicProposition`. -/
structure AtomicProposition where
  value : TruthValue
  confidence : ℚ
deriving DecidableEq, Repr

/-- Models `AtomicProposition.__init__(value, confidence)` on the raw-int
path: reject an int outside {-1, 0, 1}; with no confidence given, default
to 1.0 for TRUE/FALSE and 0.5 for UNKNOWN; with a confidence given, reject
a TRUE/FALSE value paired with a confidence other than 1.0, then reject a
confidence outside [0, 1]. -/
def AtomicProposition_init (value : Int) (confidence : Option ℚ) :
    Except AtomicError AtomicProposition :=
  match TruthValue.ofInt value with
  | none => .error .invalidTernaryValue
  | some v =>
    match confidence with
    | none => .ok ⟨v, if v ≠ TruthValue.UNKNOWN then 1 else 1/2⟩
    | some c =>
      if (v = TruthValue.TRUE ∨ v = TruthValue.FALSE) ∧ c ≠ 1 then
        .error .invalidDefiniteConfidence
      else if ¬ (0 ≤ c ∧ c ≤ 1) then
        .error .invalidConfidence
      else
        .ok ⟨v, c⟩

/-- Models `confidence_and` of `rtka_u_algorithm.py`: start from 1.0 and
multiply every element in. -/
def confidence_and (confidences : List ℚ) : ℚ :=
  confidences.foldl (fun result c => result * c) 1

/-- Models `confidence_or` of `rtka_u_algorithm.py`: start from 1.0,
multiply every `(1 - c)` in, and return one minus that product. -/
def confidence_or (confidences : List ℚ) : ℚ :=
  1 - confidences.foldl (fun result c => result * (1 - c)) 1

/-- Identity of the operation argument passed to `recursive_ternary`
(the source compares `operation == rtka_and` etc. by function identity). -/
inductive FlatOp
  | rtka_and
  | rtka_or
  | rtka_not
deriving DecidableEq, Repr

/-- Python exceptions that `recursive_ternary` can raise: the explicit
`ValueError("Input list cannot be empty")`, and the `TypeError`s produced
by unpacking a bare int as a pair, by `min`/`max` of an int against a
tuple, or by multiplying a float with `None`. -/
inductive PyErr
  | valueError (msg : String)
  | typeError
deriving DecidableEq, Repr

/-- Dynamically-typed return value of `recursive_ternary`: a bare ternary
int, or a 2-tuple of a ternary int and either a float confidence
(`some c`) or Python's `None` (`none`). -/
inductive RTResult
  | bare (v : Int)
  | pair (v : Int) (c : Option ℚ)
deriving DecidableEq, Repr

/-- Models `recursive_ternary(operation, inputs, confidences)` of
`rtka_u_algorithm.py`, including Python truthiness of `confidences`
(`None` and the empty list are both falsy) and the source's operator
precedence: `return -1, confidence_and(confidences) if confidences else
None` builds a 2-tuple whose second component is conditional, so the
early-termination branches return a pair even when no confidences were
supplied. -/
def recursive_ternary (operation : FlatOp) (inputs : List Int)
    (confidences : Option (List ℚ) := none) : Except PyErr RTResult :=
  match inputs with
  | [] => .error (.valueError "Input list cannot be empty")
  | x :: rest =>
    if rest = [] then
      match confidences with
      | some (c :: _) => .ok (.pair x (some c))
      | _ => .ok (.bare x)
    else if operation = .rtka_and ∧ x = -1 then
      .ok (.pair (-1)
        (match confidences with
         | some (c :: cs) => some (confidence_and (c :: cs))
         | _ => none))
    else if operation = .rtka_or ∧ x = 1 then
      .ok (.pair 1
        (match confidences with
         | some (c :: cs) => some (confidence_or (c :: cs))
         | _ => none))
    else
      match confidences with
      | some (c0 :: cs) =>
        match recursive_ternary operation rest (some cs) with
        | .error e => .error e
        | .ok (.bare _) => .error .typeError
        | .ok (.pair tail_result tail_confidence) =>
          let result : Int :=
            match operation with
            | .rtka_and => min x tail_result
            | .rtka_or => max x tail_result
            | .rtka_not => -x
          match operation, tail_confidence with
          | .rtka_and, some tc => .ok (.pair result (some (confidence_and [c0, tc])))
          | .rtka_or, some tc => .ok (.pair result (some (confidence_or [c0, tc])))
          | .rtka_not, _ => .ok (.pair result (some c0))
          | _, none => .error .typeError
      | _ =>
        match recursive_ternary operation rest none with
        | .error e => .error e
        | .ok tail =>
          match operation, tail with
          | .rtka_not, _ => .ok (.bare (-x))
          | .rtka_and, .bare b => .ok (.bare (min x b))
          | .rtka_or, .bare b => .ok (.bare (max x b))
          | _, .pair _ _ => .error .typeError

/-! ### Helper lemmas -/

lemma kleene_min_eq_FALSE (a b : TruthValue) :
    kleene_min a b = TruthValue.FALSE ↔ (a = TruthValue.FALSE ∨ b = TruthValue.FALSE) := by
  cases a <;> cases b <;> decide

lemma kleene_min_eq_TRUE (a b : TruthValue) :
    kleene_min a b = TruthValue.TRUE ↔ (a = TruthValue.TRUE ∧ b = TruthValue.TRUE) := by
  cases a <;> cases b <;> decide

lemma kleene_max_eq_TRUE (a b : TruthValue) :
    kleene_max a b = TruthValue.TRUE ↔ (a = TruthValue.TRUE ∨ b = TruthValue.TRUE) := by
  cases a <;> cases b <;> decide

lemma kleene_max_eq_FALSE (a b : TruthValue) :
    kleene_max a b = TruthValue.FALSE ↔ (a = TruthValue.FALSE ∧ b = TruthValue.FALSE) := by
  cases a <;> cases b <;> decide

lemma kleene_neg_eq_UNKNOWN (a : TruthValue) :
    kleene_neg a = TruthValue.UNKNOWN ↔ a = TruthValue.UNKNOWN := by
  cases a <;> decide

lemma validb_atomic {v : TruthValue} {c : ℚ} :
    validb (.atomic v c) = true ↔ (v = TruthValue.UNKNOWN ∨ c = 1) ∧ 0 ≤ c ∧ c ≤ 1 := by
  simp [validb]

lemma validb_conjunction {l r : LogicExpression} :
    validb (.conjunction l r) = true ↔ validb l = true ∧ validb r = true := by
  simp [validb]

lemma validb_disjunction {l r : LogicExpression} :
    validb (.disjunction l r) = true ↔ validb l = true ∧ validb r = true := by
  simp [validb]

lemma validb_negation {o : LogicExpression} :
    validb (.negation o) = true ↔ validb o = true := by
  simp [validb]

/-- Invariant of RTKA-mode evaluation on valid trees: a definitive result
value (TRUE or FALSE) is accompanied by confidence exactly 1. -/
lemma rtka_definite_confidence :
    ∀ e : LogicExpression, validb e = true →
      (evaluate_rtka e).value ≠ TruthValue.UNKNOWN →
      (evaluate_rtka e).confidence = 1 := by
  intro e
  induction e with
  | atomic v c =>
    intro hv hne
    rcases validb_atomic.mp hv with ⟨h1, _⟩
    simp only [evaluate_rtka] at hne ⊢
    rcases h1 with h | h
    · exact absurd h hne
    · exact h
  | conjunction l r ihl ihr =>
    intro hv hne
    rcases validb_conjunction.mp hv with ⟨hl, hr⟩
    simp only [evaluate_rtka] at hne ⊢
    by_cases hF : (evaluate_rtka l).value = TruthValue.FALSE
    · rw [if_pos hF]
    · rw [if_neg hF] at hne ⊢
      by_cases hmF : kleene_min (evaluate_rtka l).value (evaluate_rtka r).value
          = TruthValue.FALSE
      · rw [if_pos hmF]
      · rw [if_neg hmF]
        have hT : kleene_min (evaluate_rtka l).value (evaluate_rtka r).value
            = TruthValue.TRUE := by
          rcases h : kleene_min (evaluate_rtka l).value (evaluate_rtka r).value
          · exact absurd h hmF
          · exact absurd h hne
          · rfl
        obtain ⟨hLT, hRT⟩ := (kleene_min_eq_TRUE _ _).mp hT
        rw [ihl hl (by rw [hLT]; exact fun h => nomatch h),
            ihr hr (by rw [hRT]; exact fun h => nomatch h), one_mul]
  | disjunction l r ihl ihr =>
    intro hv hne
    rcases validb_disjunction.mp hv with ⟨hl, hr⟩
    simp only [evaluate_rtka] at hne ⊢
    by_cases hT : (evaluate_rtka l).value = TruthValue.TRUE
    · rw [if_pos hT]
    · rw [if_neg hT] at hne ⊢
      rcases h : kleene_max (evaluate_rtka l).value (evaluate_rtka r).value with _ | _ | _
      · obtain ⟨hLF, hRF⟩ := (kleene_max_eq_FALSE _ _).mp h
        rw [ihl hl (by rw [hLF]; exact fun h => nomatch h),
            ihr hr (by rw [hRF]; exact fun h => nomatch h)]
        ring
      · exact absurd h hne
      · rcases (kleene_max_eq_TRUE _ _).mp h with hL | hR
        · exact absurd hL hT
        · rw [ihr hr (by rw [hR]; exact fun h => nomatch h)]
          ring
  | negation o iho =>
    intro hv hne
    rw [validb_negation] at hv
    simp only [evaluate_rtka] at hne ⊢
    exact iho hv ((kleene_neg_eq_UNKNOWN _).not.mp hne)

/-- Invariant of naive-mode evaluation on valid trees: a definitive result
value (TRUE or FALSE) is accompanied by confidence exactly 1. -/
lemma naive_definite_confidence :
    ∀ e : LogicExpression, validb e = true →
      (evaluate_naive e).value ≠ TruthValue.UNKNOWN →
      (evaluate_naive e).confidence = 1 := by
  intro e
  induction e with
  | atomic v c =>
    intro hv hne
    rcases validb_atomic.mp hv with ⟨h1, _⟩
    simp only [evaluate_naive] at hne ⊢
    rcases h1 with h | h
    · exact absurd h hne
    · exact h
  | conjunction l r ihl ihr =>
    intro hv hne
    rcases validb_conjunction.mp hv with ⟨hl, hr⟩
    simp only [evaluate_naive] at hne ⊢
    by_cases hmF : kleene_min (evaluate_naive l).value (evaluate_naive r).value
        = TruthValue.FALSE
    · rw [if_pos hmF]
    · rw [if_neg hmF]
      have hT : kleene_min (evaluate_naive l).value (evaluate_naive r).value
          = TruthValue.TRUE := by
        rcases h : kleene_min (evaluate_naive l).value (evaluate_naive r).value
        · exact absurd h hmF
        · exact absurd h hne
        · rfl
      obtain ⟨hLT, hRT⟩ := (kleene_min_eq_TRUE _ _).mp hT
      rw [ihl hl (by rw [hLT]; exact fun h => nomatch h),
          ihr hr (by rw [hRT]; exact fun h => nomatch h), one_mul]
  | disjunction l r ihl ihr =>
    intro hv hne
    rcases validb_disjunction.mp hv with ⟨hl, hr⟩
    simp only [evaluate_naive] at hne ⊢
    rcases h : kleene_max (evaluate_naive l).value (evaluate_naive r).value with _ | _ | _
    · obtain ⟨hLF, hRF⟩ := (kleene_max_eq_FALSE _ _).mp h
      rw [ihl hl (by rw [hLF]; exact fun h => nomatch h),
          ihr hr (by rw [hRF]; exact fun h => nomatch h)]
      ring
    · exact absurd h hne
    · rcases (kleene_max_eq_TRUE _ _).mp h with hL | hR
      · rw [ihl hl (by rw [hL]; exact fun h => nomatch h)]
        ring
      · rw [ihr hr (by rw [hR]; exact fun h => nomatch h)]
        ring
  | negation o iho =>
    intro hv hne
    exact rtka_definite_confidence (.negation o) hv hne

/-- Refinement on valid trees: RTKA-mode and naive-mode evaluation agree on
the truth value and on the confidence (the evaluation counts may differ). -/
lemma rtka_eq_naive :
    ∀ e : LogicExpression, validb e = true →
      (evaluate_rtka e).value = (evaluate_naive e).value ∧
      (evaluate_rtka e).confidence = (evaluate_naive e).confidence := by
  intro e
  induction e with
  | atomic v c => exact fun _ => ⟨rfl, rfl⟩
  | conjunction l r ihl ihr =>
    intro hv
    rcases validb_conjunction.mp hv with ⟨hl, hr⟩
    obtain ⟨ihlv, ihlc⟩ := ihl hl
    obtain ⟨ihrv, ihrc⟩ := ihr hr
    simp only [evaluate_rtka, evaluate_naive]
    by_cases hF : (evaluate_rtka l).value = TruthValue.FALSE
    · have hnF : (evaluate_naive l).value = TruthValue.FALSE := ihlv ▸ hF
      have hmin : kleene_min (evaluate_naive l).value (evaluate_naive r).value
          = TruthValue.FALSE := (kleene_min_eq_FALSE _ _).mpr (Or.inl hnF)
      rw [if_pos hF]
      exact ⟨hmin.symm, by rw [if_pos hmin]⟩
    · rw [if_neg hF]
      exact ⟨by rw [ihlv, ihrv], by rw [ihlv, ihrv, ihlc, ihrc]⟩
  | disjunction l r ihl ihr =>
    intro hv
    rcases validb_disjunction.mp hv with ⟨hl, hr⟩
    obtain ⟨ihlv, ihlc⟩ := ihl hl
    obtain ⟨ihrv, ihrc⟩ := ihr hr
    simp only [evaluate_rtka, evaluate_naive]
    by_cases hT : (evaluate_rtka l).value = TruthValue.TRUE
    · have hnT : (evaluate_naive l).value = TruthValue.TRUE := ihlv ▸ hT
      have hmax : kleene_max (evaluate_naive l).value (evaluate_naive r).value
          = TruthValue.TRUE := (kleene_max_eq_TRUE _ _).mpr (Or.inl hnT)
      have hcl : (evaluate_naive l).confidence = 1 :=
        naive_definite_confidence l hl (by rw [hnT]; exact fun h => nomatch h)
      rw [if_pos hT]
      exact ⟨hmax.symm, by rw [hcl]; ring⟩
    · rw [if_neg hT]
      exact ⟨by rw [ihlv, ihrv], by rw [ihlc, ihrc]⟩
  | negation o iho => exact fun _ => ⟨rfl, rfl⟩

/-- On every tree (valid or not), the RTKA-mode evaluation count is at most
the naive-mode evaluation count. -/
lemma rtka_evaluations_le_naive :
    ∀ e : LogicExpression,
      (evaluate_rtka e).evaluations ≤ (evaluate_naive e).evaluations := by
  intro e
  induction e with
  | atomic v c => exact le_refl 1
  | conjunction l r ihl ihr =>
    simp only [evaluate_rtka, evaluate_naive]
    by_cases hF : (evaluate_rtka l).value = TruthValue.FALSE
    · rw [if_pos hF]
      exact le_trans ihl (Nat.le_add_right _ _)
    · rw [if_neg hF]
      exact Nat.add_le_add ihl ihr
  | disjunction l r ihl ihr =>
    simp only [evaluate_rtka, evaluate_naive]
    by_cases hT : (evaluate_rtka l).value = TruthValue.TRUE
    · rw [if_pos hT]
      exact le_trans ihl (Nat.le_add_right _ _)
    · rw [if_neg hT]
      exact Nat.add_le_add ihl ihr
  | negation o iho => exact le_refl _

/-! ### Claims -/

/-- C1: for every valid expression tree, evaluating in optimized mode
(`evaluate_rtka`) and in naive mode (`evaluate_naive`) produces the same
truth value and the same confidence; only the evaluation count may differ. -/
theorem spec_C1 (T : LogicExpression) (h : validb T = true) :
    (evaluate_rtka T).value = (evaluate_naive T).value ∧
    (evaluate_rtka T).confidence = (evaluate_naive T).confidence :=
  rtka_eq_naive T h

/-- Witness for C1 on a concrete valid tree whose evaluation counts differ
between the two modes. -/
theorem spec_C1_witness :
    validb (.conjunction (.atomic TruthValue.FALSE 1) (.atomic TruthValue.TRUE 1)) = true ∧
    ((evaluate_rtka (.conjunction (.atomic TruthValue.FALSE 1) (.atomic TruthValue.TRUE 1))).value
      = (evaluate_naive (.conjunction (.atomic TruthValue.FALSE 1) (.atomic TruthValue.TRUE 1))).value ∧
     (evaluate_rtka (.conjunction (.atomic TruthValue.FALSE 1) (.atomic TruthValue.TRUE 1))).confidence
      = (evaluate_naive (.conjunction (.atomic TruthValue.FALSE 1) (.atomic TruthValue.TRUE 1))).confidence) :=
  ⟨by decide, spec_C1 _ (by decide)⟩

/-- C2: for every valid expression tree, the optimized-mode evaluation count
is less than or equal to the naive-mode evaluation count. -/
theorem spec_C2 (T : LogicExpression) (_h : validb T = true) :
    (evaluate_rtka T).evaluations ≤ (evaluate_naive T).evaluations :=
  rtka_evaluations_le_naive T

/-- Witness for C2 on a concrete valid tree (count 1 versus count 3). -/
theorem spec_C2_witness :
    validb (.conjunction (.atomic TruthValue.FALSE 1)
      (.disjunction (.atomic TruthValue.TRUE 1) (.atomic TruthValue.UNKNOWN 0))) = true ∧
    (evaluate_rtka (.conjunction (.atomic TruthValue.FALSE 1)
      (.disjunction (.atomic TruthValue.TRUE 1) (.atomic TruthValue.UNKNOWN 0)))).evaluations ≤
    (evaluate_naive (.conjunction (.atomic TruthValue.FALSE 1)
      (.disjunction (.atomic TruthValue.TRUE 1) (.atomic TruthValue.UNKNOWN 0)))).evaluations :=
  ⟨by decide, spec_C2 _ (by decide)⟩

/-- C3: in optimized mode a conjunction whose left subtree evaluates to
FALSE returns (FALSE, 1.0) with the left subtree's count alone, the right
subtree never entering the result; in particular, for every expression `X`,
`Conjunction(Atomic(FALSE, 1.0), X)` evaluates with count 1. -/
theorem spec_C3 (l r X : LogicExpression)
    (h : (evaluate_rtka l).value = TruthValue.FALSE) :
    evaluate_rtka (.conjunction l r) =
      ⟨TruthValue.FALSE, 1, (evaluate_rtka l).evaluations⟩ ∧
    (evaluate_rtka (.conjunction (.atomic TruthValue.FALSE 1) X)).evaluations = 1 := by
  constructor
  · simp only [evaluate_rtka]
    rw [if_pos h]
  · simp [evaluate_rtka]

/-- Witness for C3 with a concrete FALSE left subtree and a larger right
subtree. -/
theorem spec_C3_witness :
    (evaluate_rtka (.atomic TruthValue.FALSE 1)).value = TruthValue.FALSE ∧
    (evaluate_rtka (.conjunction (.atomic TruthValue.FALSE 1)
        (.disjunction (.atomic TruthValue.TRUE 1) (.atomic TruthValue.UNKNOWN 0))) =
      ⟨TruthValue.FALSE, 1, (evaluate_rtka (.atomic TruthValue.FALSE 1)).evaluations⟩ ∧
     (evaluate_rtka (.conjunction (.atomic TruthValue.FALSE 1)
        (.disjunction (.atomic TruthValue.TRUE 1) (.atomic TruthValue.UNKNOWN 0)))).evaluations = 1) :=
  ⟨by decide,
   spec_C3 (.atomic TruthValue.FALSE 1)
     (.disjunction (.atomic TruthValue.TRUE 1) (.atomic TruthValue.UNKNOWN 0))
     (.disjunction (.atomic TruthValue.TRUE 1) (.atomic TruthValue.UNKNOWN 0))
     (by decide)⟩

/-- C4: on every valid tree, a binary disjunction whose combined value is
TRUE has confidence exactly 1.0, in both optimized and naive mode. -/
theorem spec_C4 (l r : LogicExpression) (h : validb (.disjunction l r) = true) :
    ((evaluate_rtka (.disjunction l r)).value = TruthValue.TRUE →
      (evaluate_rtka (.disjunction l r)).confidence = 1) ∧
    ((evaluate_naive (.disjunction l r)).value = TruthValue.TRUE →
      (evaluate_naive (.disjunction l r)).confidence = 1) :=
  ⟨fun hT => rtka_definite_confidence _ h (by rw [hT]; exact fun hc => nomatch hc),
   fun hT => naive_definite_confidence _ h (by rw [hT]; exact fun hc => nomatch hc)⟩

/-- Witness for C4: a disjunction whose left operand is an UNKNOWN with
confidence 0, so no early exit fires and the TRUE result still carries
confidence 1 in both modes. -/
theorem spec_C4_witness :
    validb (.disjunction (.atomic TruthValue.UNKNOWN 0) (.atomic TruthValue.TRUE 1)) = true ∧
    (((evaluate_rtka (.disjunction (.atomic TruthValue.UNKNOWN 0) (.atomic TruthValue.TRUE 1))).value
        = TruthValue.TRUE →
      (evaluate_rtka (.disjunction (.atomic TruthValue.UNKNOWN 0) (.atomic TruthValue.TRUE 1))).confidence
        = 1) ∧
     ((evaluate_naive (.disjunction (.atomic TruthValue.UNKNOWN 0) (.atomic TruthValue.TRUE 1))).value
        = TruthValue.TRUE →
      (evaluate_naive (.disjunction (.atomic TruthValue.UNKNOWN 0) (.atomic TruthValue.TRUE 1))).confidence
        = 1)) :=
  ⟨by decide, spec_C4 _ _ (by decide)⟩

/-- C10: implicit invariant — on every valid tree, an evaluation result of
either mode whose value is TRUE or FALSE carries confidence exactly 1.0, so
a confidence strictly below 1.0 can accompany only UNKNOWN. -/
theorem spec_C10 (T : LogicExpression) (h : validb T = true) :
    ((evaluate_rtka T).value ≠ TruthValue.UNKNOWN → (evaluate_rtka T).confidence = 1) ∧
    ((evaluate_naive T).value ≠ TruthValue.UNKNOWN → (evaluate_naive T).confidence = 1) :=
  ⟨rtka_definite_confidence T h, naive_definite_confidence T h⟩

/-- Witness for C10 on a concrete valid tree with a definitive result. -/
theorem spec_C10_witness :
    validb (.negation (.atomic TruthValue.FALSE 1)) = true ∧
    (((evaluate_rtka (.negation (.atomic TruthValue.FALSE 1))).value ≠ TruthValue.UNKNOWN →
      (evaluate_rtka (.negation (.atomic TruthValue.FALSE 1))).confidence = 1) ∧
     ((evaluate_naive (.negation (.atomic TruthValue.FALSE 1))).value ≠ TruthValue.UNKNOWN →
      (evaluate_naive (.negation (.atomic TruthValue.FALSE 1))).confidence = 1)) :=
  ⟨by decide, spec_C10 _ (by decide)⟩

/-- C5: flat-sequence round trip — `recursive_ternary(and, [1,0,-1],
[0.9,0.8,0.7])` returns `(-1, 0.9*0.8*0.7 = 0.504)` and
`recursive_ternary(or, [-1,0,1], [0.9,0.8,0.7])` returns
`(1, 1-(0.1*0.2*0.3) = 0.994)`, with the arithmetic exact in ℚ. -/
theorem spec_C5 :
    recursive_ternary .rtka_and [1, 0, -1] (some [9/10, 8/10, 7/10])
      = .ok (.pair (-1) (some (504/1000))) ∧
    recursive_ternary .rtka_or [-1, 0, 1] (some [9/10, 8/10, 7/10])
      = .ok (.pair 1 (some (994/1000))) := by
  constructor
  · simp only [recursive_ternary, confidence_and]
    norm_num
    all_goals rfl
  · simp only [recursive_ternary, confidence_or]
    norm_num
    all_goals rfl

/-- C6 (actual behavior): `recursive_ternary` performs no length validation.
With a confidence sequence longer than the value sequence the call succeeds,
silently ignoring the extra confidence; with a shorter one it fails only
midway, with a `TypeError` from unpacking a bare int, not with a
mismatched-lengths check before evaluation. -/
theorem spec_C6_behavior :
    recursive_ternary .rtka_and [1, 0, -1] (some [9/10, 8/10, 7/10, 6/10])
      = .ok (.pair (-1) (some (504/1000))) ∧
    recursive_ternary .rtka_and [1, 0, -1] (some [9/10, 8/10])
      = .error .typeError := by
  constructor
  · simp only [recursive_ternary, confidence_and]
    norm_num
    all_goals rfl
  · rfl

/-- C7 (actual behavior): `confidence_and([])` returns 1.0 and
`confidence_or([])` returns 0.0 — neither call fails on an empty list. -/
theorem spec_C7_behavior :
    confidence_and [] = 1 ∧ confidence_or [] = 0 := by
  constructor
  · rfl
  · show (1 : ℚ) - 1 = 0
    norm_num

/-- C8 (actual behavior): without a confidence sequence, the
early-termination branch of `recursive_ternary` still returns a pair
`(-1, None)` because of the source's operator precedence, and that pair
then crashes the function's own recursive step (`min` of an int against a
tuple raises `TypeError`). -/
theorem spec_C8_behavior :
    recursive_ternary .rtka_and [-1, 1] none = .ok (.pair (-1) none) ∧
    recursive_ternary .rtka_and [1, -1, 1] none = .error .typeError := by
  constructor <;> rfl

/-- C9: constructing an atomic proposition with a TRUE or FALSE value and
an explicit confidence other than 1.0 fails with
`InvalidDefiniteConfidence`; without a confidence, TRUE/FALSE default to
confidence 1.0 and UNKNOWN defaults to 0.5. -/
theorem spec_C9 (c : ℚ) (hc : c ≠ 1) :
    AtomicProposition_init 1 (some c) = .error .invalidDefiniteConfidence ∧
    AtomicProposition_init (-1) (some c) = .error .invalidDefiniteConfidence ∧
    AtomicProposition_init 1 none = .ok ⟨TruthValue.TRUE, 1⟩ ∧
    AtomicProposition_init (-1) none = .ok ⟨TruthValue.FALSE, 1⟩ ∧
    AtomicProposition_init 0 none = .ok ⟨TruthValue.UNKNOWN, 1/2⟩ := by
  refine ⟨?_, ?_, rfl, rfl, rfl⟩ <;>
    simp [AtomicProposition_init, TruthValue.ofInt, hc]

/-- Witness for C9 at the spec's own example confidence 0.5. -/
theorem spec_C9_witness :
    ((1 : ℚ)/2 ≠ 1) ∧
    (AtomicProposition_init 1 (some (1/2)) = .error .invalidDefiniteConfidence ∧
     AtomicProposition_init (-1) (some (1/2)) = .error .invalidDefiniteConfidence ∧
     AtomicProposition_init 1 none = .ok ⟨TruthValue.TRUE, 1⟩ ∧
     AtomicProposition_init (-1) none = .ok ⟨TruthValue.FALSE, 1⟩ ∧
     AtomicProposition_init 0 none = .ok ⟨TruthValue.UNKNOWN, 1/2⟩) :=
  ⟨by norm_num, spec_C9 (1/2) (by norm_num)⟩
